import Mathlib

/-!
Verification of the skua configuration validator and image build pipeline.

This development shallowly embeds the data model and the pure operations of
the repository (src/skua/config/resources.py, src/skua/config/validation.py,
src/skua/docker.py, src/skua/project_adapt.py) and proves the specified
properties about them.

Modelling conventions:
* Python strings are Lean `String`; `str.strip()` is `pyStrip` (drop Unicode
  whitespace at both ends of the character list).
* Python sets of capability tokens are `Finset String`.
* Byte strings fed to the SHA-256 hasher are modeled as `List Nat`
  (one entry per character code point); the digest is modeled as the
  full byte stream itself, i.e. SHA-256 is treated as injective, which is
  the standing assumption behind using it as a build fingerprint.
* Filesystem and subprocess results (entrypoint bytes, docker inspect
  output, uid/gid) are explicit parameters.
-/

/-- Leading-whitespace strip on a character list (one side of Python `str.strip`). -/
def stripL (l : List Char) : List Char := l.dropWhile Char.isWhitespace

/-- Python `str.strip()`: drop whitespace from both ends. -/
def pyStrip (s : String) : String := ⟨(stripL (stripL s.data).reverse).reverse⟩

/-- Index of the last occurrence of a character (Python `str.rfind`, `none` for -1). -/
def lastIdxOf (c : Char) : List Char → Option Nat
  | [] => none
  | a :: l =>
    match lastIdxOf c l with
    | some i => some (i + 1)
    | none => if a = c then some 0 else none

/-- Python `str.strip(chars)` with an explicit character set. -/
def pyStripChars (cs : List Char) (s : String) : String :=
  ⟨((s.data.dropWhile (· ∈ cs)).reverse.dropWhile (· ∈ cs)).reverse⟩

/-- Substring relation: `tok` occurs inside `s`. -/
def mentions (tok s : String) : Prop := tok.data <:+: s.data

instance (tok s : String) : Decidable (mentions tok s) :=
  List.decidableInfix tok.data s.data

-- ── Resource dataclasses (src/skua/config/resources.py) ─────────────────

structure DockerDriverSpec where
  runtime : String := "local"
  remote_host : String := ""
  cleanup : String := "ephemeral"
  container_runtime : String := ""
deriving DecidableEq

structure ComposeDriverSpec where
  runtime : String := "local"
  cleanup : String := "ephemeral"
deriving DecidableEq

structure KubernetesDriverSpec where
  context : String := ""
  «namespace» : String := "skua"
  storage_class : String := "standard"
deriving DecidableEq

structure PersistenceSpec where
  mode : String := "bind"
  base_path : String := "~/.config/skua/claude-data"
  volume_prefix : String := "skua"
deriving DecidableEq

structure NetworkSpec where
  mode : String := "bridge"
deriving DecidableEq

structure Environment where
  name : String := ""
  mode : String := "unmanaged"
  driver : String := "docker"
  docker : DockerDriverSpec := {}
  compose : ComposeDriverSpec := {}
  kubernetes : KubernetesDriverSpec := {}
  persistence : PersistenceSpec := {}
  network : NetworkSpec := {}
deriving DecidableEq

/-- Network part of `Environment.capabilities`. -/
def Environment.networkCaps (e : Environment) : Finset String :=
  if e.network.mode = "bridge" then {"network.internet", "network.isolation"}
  else if e.network.mode = "internal" then {"network.isolation", "network.internal"}
  else if e.network.mode = "none" then {"network.isolation", "network.internal"}
  else if e.network.mode = "host" then {"network.internet"}
  else ∅

/-- Managed-mode part of `Environment.capabilities`. -/
def Environment.managedCaps (e : Environment) : Finset String :=
  if e.mode = "managed" then {"sidecar", "trusted.proxy", "trusted.log", "trusted.mcp"} else ∅

/-- gVisor part of `Environment.capabilities`. -/
def Environment.gvisorCaps (e : Environment) : Finset String :=
  if (e.driver = "docker" ∨ e.driver = "compose") ∧ e.docker.container_runtime = "runsc" then
    {"isolation.gvisor"}
  else ∅

/-- Cleanup policy of the active driver, as selected in `Environment.capabilities`. -/
def Environment.activeCleanup (e : Environment) : String :=
  if e.driver = "docker" then e.docker.cleanup
  else if e.driver = "compose" then e.compose.cleanup
  else ""

/-- Docker-diff audit part of `Environment.capabilities`. -/
def Environment.auditCaps (e : Environment) : Finset String :=
  if e.activeCleanup = "persistent" ∧ (e.driver = "docker" ∨ e.driver = "compose") then
    {"audit.docker-diff"}
  else ∅

/-- Model of `Environment.capabilities`: the set of capabilities this environment provides. -/
def Environment.capabilities (e : Environment) : Finset String :=
  e.networkCaps ∪ e.managedCaps ∪ {"container.sudo", "container.no-sudo"}
    ∪ e.gvisorCaps ∪ e.auditCaps

structure ProxySpec where
  allowed_domains : List String := []
  log_requests : Bool := true
deriving DecidableEq

structure SecurityNetworkSpec where
  outbound : String := "unrestricted"
  proxy : ProxySpec := {}
deriving DecidableEq

structure VerifiedInstallSpec where
  auto_approve : List String := []
deriving DecidableEq

structure SecurityInstallSpec where
  mode : String := "none"
  verified : VerifiedInstallSpec := {}
deriving DecidableEq

structure SecurityAuditSpec where
  mode : String := "none"
deriving DecidableEq

structure ImageUpdatesSpec where
  mode : String := "disabled"
  source : String := "audit"
deriving DecidableEq

structure SecurityAgentSpec where
  «sudo» : Bool := false
deriving DecidableEq

structure SecurityProfile where
  name : String := ""
  network : SecurityNetworkSpec := {}
  agent : SecurityAgentSpec := {}
  install : SecurityInstallSpec := {}
  audit : SecurityAuditSpec := {}
  image_updates : ImageUpdatesSpec := {}
deriving DecidableEq

/-- Model of `SecurityProfile.required_capabilities`: capabilities this profile requires. -/
def SecurityProfile.required_capabilities (s : SecurityProfile) : Finset String :=
  (if s.network.outbound = "unrestricted" then {"network.internet"}
   else if s.network.outbound = "none" then {"network.isolation"}
   else if s.network.outbound = "proxy" then {"trusted.proxy", "network.internal"}
   else ∅)
  ∪ (if s.audit.mode = "trusted" then {"trusted.log"} else ∅)
  ∪ (if s.install.mode = "verified" then {"trusted.proxy"} else ∅)
  ∪ (if s.image_updates.source = "proxy" then {"trusted.log"} else ∅)

structure AgentInstallSpec where
  commands : List String := []
  required_packages : List String := []
  base_image : String := ""
deriving DecidableEq

structure AgentRuntimeSpec where
  command : String := ""
  env : List (String × String) := []
  entrypoint_hooks : List String := []
deriving DecidableEq

structure AgentAuthSpec where
  dir : String := ""
  files : List String := []
  login_command : String := ""
deriving DecidableEq

structure AgentConfig where
  name : String := ""
  install : AgentInstallSpec := {}
  runtime : AgentRuntimeSpec := {}
  auth : AgentAuthSpec := {}
deriving DecidableEq

structure ProjectGitSpec where
  name : String := ""
  email : String := ""
deriving DecidableEq

structure ProjectSshSpec where
  private_key : String := ""
deriving DecidableEq

structure ProjectImageSpec where
  base_image : String := ""
  from_image : String := ""
  extra_packages : List String := []
  extra_commands : List String := []
  version : Int := 0
deriving DecidableEq

structure Project where
  name : String := ""
  directory : String := ""
  repo : String := ""
  environment : String := "local-docker"
  security : String := "open"
  agent : String := "claude"
  credential : String := ""
  git : ProjectGitSpec := {}
  ssh : ProjectSshSpec := {}
  image : ProjectImageSpec := {}
deriving DecidableEq

-- ── Validation engine (src/skua/config/validation.py) ────────────────────

structure ValidationResult where
  errors : List String := []
  warnings : List String := []
deriving DecidableEq

/-- Model of `validate_security_internal`: internal consistency of a SecurityProfile.
Errors and warnings are accumulated in source order. -/
def validate_security_internal (s : SecurityProfile) : ValidationResult :=
  let errs1 := if s.install.mode = "verified" ∧ s.agent.«sudo» then
      ["install.mode \x27verified\x27 requires agent.sudo to be false — agent could bypass proxy with sudo"]
    else []
  let warns1 := if s.install.mode = "none" ∧ s.agent.«sudo» then
      ["install.mode \x27none\x27 with agent.sudo true — agent can still install packages directly via sudo"]
    else []
  let errs2 := if (s.install.mode = "advisory" ∨ s.install.mode = "unrestricted") ∧ ¬ s.agent.«sudo» then
      ["install.mode \x27" ++ s.install.mode ++ "\x27 requires agent.sudo to be true — agent needs sudo to install packages"]
    else []
  let warns2 := if s.network.outbound = "proxy" ∧ s.agent.«sudo» then
      ["network.outbound \x27proxy\x27 with agent.sudo true — agent could bypass proxy via raw sockets or iptables changes"]
    else []
  let errs3 := if s.audit.mode = "trusted" ∧ s.network.outbound ≠ "proxy" then
      ["audit.mode \x27trusted\x27 requires network.outbound \x27proxy\x27 — trusted audit requires proxy mediation"]
    else []
  let errs4 := if s.image_updates.source = "proxy" ∧ s.audit.mode ≠ "trusted" then
      ["imageUpdates.source \x27proxy\x27 requires audit.mode \x27trusted\x27"]
    else []
  let warns3 := if s.image_updates.mode ≠ "disabled" ∧ s.audit.mode = "none" then
      ["imageUpdates.mode \x27" ++ s.image_updates.mode ++ "\x27 with audit.mode \x27none\x27 — no install data will be available for image updates"]
    else []
  { errors := errs1 ++ errs2 ++ errs3 ++ errs4, warnings := warns1 ++ warns2 ++ warns3 }

/-- Model of `_capability_hint`: remediation hint for a missing capability token. -/
def capabilityHint (cap : String) (_env : Environment) : String :=
  if cap = "trusted.proxy" then " Switch to mode \x27managed\x27 (requires driver \x27compose\x27 or \x27kubernetes\x27)."
  else if cap = "trusted.log" then " Switch to mode \x27managed\x27 (requires driver \x27compose\x27 or \x27kubernetes\x27)."
  else if cap = "trusted.mcp" then " Switch to mode \x27managed\x27 for trusted MCP endpoints."
  else if cap = "network.internet" then " Change network.mode to \x27bridge\x27 or \x27host\x27."
  else if cap = "network.isolation" then " Change network.mode to \x27bridge\x27, \x27internal\x27, or \x27none\x27."
  else if cap = "network.internal" then " Change network.mode to \x27internal\x27 or \x27none\x27."
  else if cap = "sidecar" then " Switch to mode \x27managed\x27 (requires driver \x27compose\x27 or \x27kubernetes\x27)."
  else if cap = "audit.docker-diff" then " Set cleanup to \x27persistent\x27 (non-ephemeral containers)."
  else ""

/-- The error message `validate_security_environment` emits for one missing capability. -/
def secEnvErrorMsg (security : SecurityProfile) (environment : Environment) (cap : String) : String :=
  "security \x27" ++ security.name ++ "\x27 requires capability \x27" ++ cap
    ++ "\x27, but environment \x27" ++ environment.name ++ "\x27 (mode: " ++ environment.mode
    ++ ", driver: " ++ environment.driver ++ ", network: " ++ environment.network.mode
    ++ ") does not provide it." ++ capabilityHint cap environment

/-- Model of `validate_security_environment`: one error per missing capability, in sorted order. -/
def validate_security_environment (security : SecurityProfile) (environment : Environment) :
    ValidationResult :=
  let required := security.required_capabilities
  let provided := environment.capabilities
  let missing := required \ provided
  { errors := (missing.sort (· ≤ ·)).map (secEnvErrorMsg security environment),
    warnings := [] }

-- ── Image naming (src/skua/docker.py) ────────────────────────────────────

/-- Normalization of the base image name in `image_name_for_agent`. -/
def normBaseImageName (base_image_name : String) : String :=
  let base := pyStrip (if base_image_name = "" then "skua-base" else base_image_name)
  if base = "" then "skua-base" else base

/-- Normalization of the agent name in `image_name_for_agent`. -/
def normAgentName (agent_name : String) : String :=
  let agent := pyStrip (if agent_name = "" then "claude" else agent_name)
  if agent = "" then "claude" else agent

/-- Split a tag at the last colon, only when it occurs after the last slash
(the `rfind` comparison shared by `image_name_for_agent` and `_split_image_ref_tag`). -/
def splitTagIdx (l : List Char) : List Char × List Char :=
  match lastIdxOf ':' l, lastIdxOf '/' l with
  | some ci, some si => if si < ci then (l.take ci, l.drop ci) else (l, [])
  | some ci, none => (l.take ci, l.drop ci)
  | none, _ => (l, [])

/-- Body of `image_name_for_agent` after its name normalization steps:
split the tag, append `-<agent>` to the repository part unless already
present. -/
def imageNameCore (base agent : String) : String :=
  let rt := splitTagIdx base.data
  let suffix := '-' :: agent.data
  if suffix <:+ rt.1 then base
  else ⟨rt.1 ++ suffix ++ rt.2⟩

/-- Model of `image_name_for_agent`: agent-specific image name, preserving an optional tag. -/
def image_name_for_agent (base_image_name agent_name : String) : String :=
  imageNameCore (normBaseImageName base_image_name) (normAgentName agent_name)

/-- Model of `_split_image_ref_tag`: split an image reference into repository and optional tag. -/
def splitImageRefTag (image_ref : String) : String × String :=
  let ref := pyStrip image_ref
  if ref = "" then ("skua-base", "")
  else
    let rt := splitTagIdx ref.data
    (⟨rt.1⟩, ⟨rt.2⟩)

/-- Model of `_sanitize_mount_name`: safe single path component. -/
def sanitizeMountName (name : String) : String :=
  let cleaned := pyStripChars ['.', '-']
    ⟨(pyStrip name).data.map (fun c => if c.isAlphanum ∨ c = '.' ∨ c = '_' ∨ c = '-' then c else '-')⟩
  if cleaned = "" ∨ cleaned = "." ∨ cleaned = ".." then "project" else cleaned

/-- Model of `project_has_image_customizations`. -/
def project_has_image_customizations (project : Project) : Prop :=
  pyStrip project.image.base_image ≠ "" ∨ pyStrip project.image.from_image ≠ ""
    ∨ project.image.extra_packages ≠ [] ∨ project.image.extra_commands ≠ []

instance (p : Project) : Decidable (project_has_image_customizations p) := by
  unfold project_has_image_customizations; infer_instance

/-- Model of `image_name_for_project`: the image tag to use for a specific project. -/
def image_name_for_project (base_image_name : String) (project : Project) : String :=
  let agent_name := if project.agent = "" then "claude" else project.agent
  let agent_image := image_name_for_agent base_image_name agent_name
  if ¬ project_has_image_customizations project then agent_image
  else
    let rt := splitImageRefTag agent_image
    let project_part := sanitizeMountName (if project.name = "" then "project" else project.name)
    let version := if project.image.version < 1 then 1 else project.image.version
    rt.1 ++ "-" ++ project_part ++ "-v" ++ toString version ++ rt.2

-- ── Dockerfile generation (src/skua/docker.py) ───────────────────────────

/-- Model of `CORE_PACKAGES`: always included. -/
def CORE_PACKAGES : List String :=
  ["ca-certificates", "curl", "wget", "git", "openssh-client", "sudo", "vim"]

/-- Model of `DEFAULT_PACKAGES`: included unless explicitly removed. -/
def DEFAULT_PACKAGES : List String :=
  ["python3", "python3-pip",
   "procps", "coreutils", "findutils", "grep", "gawk", "sed",
   "less", "tree", "file", "htop", "jq", "tmux",
   "zip", "unzip", "tar", "gzip", "bzip2", "xz-utils",
   "diffutils", "patch", "man-db", "manpages",
   "net-tools", "iputils-ping", "dnsutils"]

/-- Model of `DEFAULT_AGENT_INSTALLS` dict. -/
def DEFAULT_AGENT_INSTALLS (name : String) : Option (List String) :=
  if name = "claude" then some ["curl -fsSL https://claude.ai/install.sh | bash"]
  else if name = "codex" then some ["npm install -g --prefix /home/dev/.local @openai/codex"]
  else none

/-- Model of `DEFAULT_AGENT_REQUIRED_PACKAGES` dict. -/
def DEFAULT_AGENT_REQUIRED_PACKAGES (name : String) : Option (List String) :=
  if name = "codex" then some ["nodejs", "npm"] else none

/-- Model of `_normalize_agent_install_commands`. -/
def normalizeAgentInstallCommands (agent_name : String) (commands : List String) : List String :=
  (commands.map (fun cmd =>
    let c := pyStrip cmd
    if agent_name = "codex" ∧ c = "npm install -g @openai/codex" then
      "npm install -g --prefix /home/dev/.local @openai/codex"
    else c)).filter (fun c => c ≠ "")

/-- The `selected_agents` list in `generate_dockerfile`. -/
def selectedAgentsOf (agent : Option AgentConfig) (agents : List AgentConfig) : List AgentConfig :=
  if agents.isEmpty then agent.toList else agents

/-- First-occurrence deduplication (the `seen`-set loop in `generate_dockerfile`). -/
def dedupFirstAux (seen : List String) : List String → List String
  | [] => []
  | p :: ps => if p ∈ seen then dedupFirstAux seen ps else p :: dedupFirstAux (p :: seen) ps

/-- First-occurrence deduplication, starting from an empty seen set. -/
def dedupFirst (l : List String) : List String := dedupFirstAux [] l

/-- The raw package list assembled in `generate_dockerfile`, in precedence order. -/
def packagesFor (selected : List AgentConfig) (extra_packages : List String) : List String :=
  CORE_PACKAGES ++ DEFAULT_PACKAGES
    ++ (selected.map (fun a =>
          (DEFAULT_AGENT_REQUIRED_PACKAGES a.name).getD [] ++ a.install.required_packages)).flatten
    ++ extra_packages

/-- Python `sep.join`. -/
def joinSep (sep : String) : List String → String
  | [] => ""
  | [x] => x
  | x :: y :: xs => x ++ sep ++ joinSep sep (y :: xs)

/-- The `pkg_line` in `generate_dockerfile`. -/
def pkgLineFor (selected : List AgentConfig) (extra_packages : List String) : String :=
  joinSep " \\\n    " (dedupFirst (packagesFor selected extra_packages))

/-- The deduplicated `install_cmds` in `generate_dockerfile`. -/
def installCmdsFor (agent : Option AgentConfig) (selected : List AgentConfig) : List String :=
  dedupFirst (
    if selected.isEmpty then
      let default_name := match agent with
        | some a => if a.name ≠ "" then a.name else "claude"
        | none => "claude"
      (DEFAULT_AGENT_INSTALLS default_name).getD ((DEFAULT_AGENT_INSTALLS "claude").getD [])
    else
      (selected.map (fun a =>
        if a.install.commands ≠ [] then normalizeAgentInstallCommands a.name a.install.commands
        else (DEFAULT_AGENT_INSTALLS a.name).getD [])).flatten)

/-- The `install_lines` in `generate_dockerfile`. -/
def installLinesFor (agent : Option AgentConfig) (selected : List AgentConfig) : String :=
  joinSep "\n" ((installCmdsFor agent selected).map (fun cmd => "RUN " ++ cmd))

/-- The `extra_lines` in `generate_dockerfile`. -/
def extraLinesFor (extra_commands : List String) : String :=
  if extra_commands = [] then ""
  else "\n" ++ joinSep "\n" (extra_commands.map (fun cmd => "RUN " ++ cmd))

/-- The sudo-removal block appended when `security.agent.sudo` is false. -/
def SUDO_REMOVAL : String :=
  "\n# ── Remove sudo (security: agent.sudo=false) ─────────────────────────\nRUN sudo deluser dev sudo 2>/dev/null || true && \\\n    sudo sed -i \x27/^dev /d\x27 /etc/sudoers && \\\n    sudo rm -f /etc/sudoers.d/* && \\\n    sudo chmod 0440 /etc/sudoers\n"

/-- The `sudo_removal` fragment in `generate_dockerfile`. -/
def sudoRemovalFor (security : Option SecurityProfile) : String :=
  match security with
  | some s => if ¬ s.agent.«sudo» then SUDO_REMOVAL else ""
  | none => ""

/-- The Dockerfile template of `generate_dockerfile`, with the computed fragments
spliced in at the f-string interpolation points. -/
def dockerfileRender (base_image pkg_line install_lines extra_lines sudo_removal : String) : String :=
  "FROM " ++ base_image
    ++ "\n\nARG DEBIAN_FRONTEND=noninteractive\nARG USER_UID=1000\nARG USER_GID=1000\n\n# ── Core system packages ─────────────────────────────────────────────\nRUN apt-get update && apt-get install -y --no-install-recommends \\\n    "
    ++ pkg_line
    ++ " \\\n    && rm -rf /var/lib/apt/lists/*\n\n# ── Create non-root user (match host UID/GID when possible) ──────────\nRUN set -eux; \\\n    if ! getent group \"$USER_GID\" >/dev/null; then groupadd --gid \"$USER_GID\" dev; fi; \\\n    if getent passwd \"$USER_UID\" >/dev/null; then \\\n        existing_user=\"$(getent passwd \"$USER_UID\" | cut -d: -f1)\"; \\\n        if [ \"$existing_user\" != \"dev\" ]; then usermod -l dev \"$existing_user\"; fi; \\\n        usermod -d /home/dev -m dev; \\\n        usermod -g \"$USER_GID\" dev; \\\n    else \\\n        useradd --uid \"$USER_UID\" --gid \"$USER_GID\" -m -s /bin/bash dev; \\\n    fi; \\\n    echo \"dev ALL=(ALL) NOPASSWD:ALL\" >> /etc/sudoers\n\n# ── Install agent ────────────────────────────────────────────────────\nENV NPM_CONFIG_PREFIX=\"/home/dev/.local\"\nUSER dev\n"
    ++ install_lines
    ++ "\nWORKDIR /home/dev\n"
    ++ extra_lines
    ++ "\n\n# ── Non-sensitive config defaults (copied into volume on first run) ──\nCOPY --chown=dev:dev claude-settings/ /home/dev/.claude-defaults/\n\n# ── Placeholder directories ─────────────────────────────────────────\nRUN mkdir -p /home/dev/.ssh /home/dev/project /home/dev/.claude\n\n# ── Environment ──────────────────────────────────────────────────────\nENV EDITOR=vim\nENV PATH=\"/home/dev/.local/bin:$\x7bPATH\x7d\"\n"
    ++ sudo_removal
    ++ "\n# ── Entrypoint ───────────────────────────────────────────────────────\nCOPY --chown=dev:dev entrypoint.sh /home/dev/entrypoint.sh\nRUN chmod +x /home/dev/entrypoint.sh\n\nENTRYPOINT [\"/home/dev/entrypoint.sh\"]\n"

/-- Model of `generate_dockerfile`. -/
def generate_dockerfile (agent : Option AgentConfig) (agents : List AgentConfig)
    (security : Option SecurityProfile) (base_image : String)
    (extra_packages extra_commands : List String) : String :=
  let selected := selectedAgentsOf agent agents
  dockerfileRender base_image (pkgLineFor selected extra_packages)
    (installLinesFor agent selected) (extraLinesFor extra_commands) (sudoRemovalFor security)

-- ── Build context hashing (src/skua/docker.py) ───────────────────────────

/-- UTF-8 text as a byte stream, modeled one entry per code point. -/
def strBytes (s : String) : List Nat := s.data.map Char.toNat

/-- Decimal rendering of a natural number as a byte stream (Python `str(n).encode`). -/
def decBytes (n : Nat) : List Nat :=
  if n = 0 then [48] else (Nat.digits 10 n).reverse.map (· + 48)

/-- Model of `_hash_with_marker`: marker, NUL, payload (or the explicit missing sentinel), NUL. -/
def hashWithMarker (marker : String) (value : Option (List Nat)) : List Nat :=
  strBytes marker ++ [0] ++ value.getD (strBytes "<missing>") ++ [0]

/-- Model of `compute_build_context_hash`: the byte stream fed to SHA-256 in fixed segment
order. The digest is modeled as the stream itself (SHA-256 treated as injective).
Filesystem inputs (entrypoint bytes, local defaults) and `os.getuid`/`os.getgid`
are explicit parameters. -/
def compute_build_context_hash (security : Option SecurityProfile) (agent : Option AgentConfig)
    (agents : List AgentConfig) (base_image : String)
    (extra_packages extra_commands : List String)
    (entrypoint : Option (List Nat)) (uid gid : Nat)
    (settings settingsLocal : Option (List Nat)) : List Nat :=
  let dockerfile_content :=
    generate_dockerfile agent agents security base_image extra_packages extra_commands
  hashWithMarker "version" (some (strBytes "v1"))
    ++ hashWithMarker "dockerfile" (some (strBytes dockerfile_content))
    ++ hashWithMarker "entrypoint" entrypoint
    ++ hashWithMarker "uid" (some (decBytes uid))
    ++ hashWithMarker "gid" (some (decBytes gid))
    ++ hashWithMarker "claude-default:settings.json" settings
    ++ hashWithMarker "claude-default:settings.local.json" settingsLocal

-- ── Image label lookup and build-context match (src/skua/docker.py) ──────

/-- Model of `_image_label`: docker-inspect output (`none` when the binary is unavailable,
otherwise return code and stdout) normalized to a label value. -/
def imageLabelOf (inspect : Option (Int × String)) : String :=
  match inspect with
  | none => ""
  | some (returncode, stdout) =>
    if returncode ≠ 0 then ""
    else
      let value := pyStrip stdout
      if value = "" ∨ value = "<no value>" ∨ value = "<nil>" then "" else value

/-- Model of `image_matches_build_context`: label hash must be non-empty and equal to the
freshly recomputed hash (passed here as `expected_hash`). -/
def image_matches_build_context (inspect : Option (Int × String)) (expected_hash : String) : Bool :=
  let actual_hash := imageLabelOf inspect
  (actual_hash != "") && (actual_hash == expected_hash)

-- ── Image request handling (src/skua/project_adapt.py) ───────────────────

/-- Raw image-request mapping: every key `normalize_image_request` reads,
absent keys as `none`. -/
structure ImageRequestData where
  schemaVersion : Option Int := none
  status : Option String := none
  summary : Option String := none
  baseImage : Option String := none
  base_image : Option String := none
  fromImage : Option String := none
  from_image : Option String := none
  packages : Option (List String) := none
  extraPackages : Option (List String) := none
  extra_packages : Option (List String) := none
  commands : Option (List String) := none
  extraCommands : Option (List String) := none
  extra_commands : Option (List String) := none
deriving DecidableEq

/-- Model of `_pick`: first present key, stringified and stripped; else the default. -/
def pickStr (keys : List (Option String)) (dflt : String) : String :=
  match keys with
  | [] => dflt
  | some v :: _ => pyStrip v
  | none :: rest => pickStr rest dflt

/-- The dedup loop of `_list`: keep non-empty stripped values, first occurrence only. -/
def listKeysAux (seen : List String) : List String → List String
  | [] => []
  | v :: vs =>
    let s := pyStrip v
    if s ≠ "" ∧ s ∉ seen then s :: listKeysAux (s :: seen) vs else listKeysAux seen vs

/-- Model of `_list`: concatenate the present list-valued keys, then dedup. -/
def listKeys (keys : List (Option (List String))) : List String :=
  listKeysAux [] ((keys.map (fun k => k.getD [])).flatten)

/-- The stable internal shape produced by `normalize_image_request`. -/
structure NormalizedImageRequest where
  schemaVersion : Int
  status : String
  summary : String
  baseImage : String
  fromImage : String
  packages : List String
  commands : List String
deriving DecidableEq

/-- Model of `normalize_image_request`. -/
def normalize_image_request (data : ImageRequestData) : NormalizedImageRequest :=
  { schemaVersion :=
      match data.schemaVersion with
      | none => 1
      | some n => if n = 0 then 1 else n
    status :=
      let s := (pickStr [data.status] "draft").toLower
      if s = "" then "draft" else s
    summary := pickStr [data.summary] ""
    baseImage := pickStr [data.baseImage, data.base_image] ""
    fromImage := pickStr [data.fromImage, data.from_image] ""
    packages := listKeys [data.packages, data.extraPackages, data.extra_packages]
    commands := listKeys [data.commands, data.extraCommands, data.extra_commands] }

/-- The `current` tuple read from `project.image` in `apply_image_request_to_project`. -/
def imageCurrentView (image : ProjectImageSpec) : String × String × List String × List String :=
  (pyStrip image.base_image, pyStrip image.from_image, image.extra_packages, image.extra_commands)

/-- The `desired` tuple in `apply_image_request_to_project`. -/
def imageDesiredView (req : NormalizedImageRequest) : String × String × List String × List String :=
  (req.baseImage, req.fromImage, req.packages, req.commands)

/-- Model of `apply_image_request_to_project`, modeled as a function on `project.image`
(the only project field it reads or writes): returns the changed flag and the
updated image record. -/
def apply_image_request_to_project (image : ProjectImageSpec) (request : ImageRequestData) :
    Bool × ProjectImageSpec :=
  let req := normalize_image_request request
  if imageCurrentView image = imageDesiredView req then (false, image)
  else (true,
    { image with
        base_image := req.baseImage, from_image := req.fromImage,
        extra_packages := req.packages, extra_commands := req.commands,
        version := image.version + 1 })

-- ── Helper lemmas: Python strip ──────────────────────────────────────────

lemma stripL_head? {l : List Char} {c : Char} (h : (stripL l).head? = some c) :
    c.isWhitespace = false := by
  induction l with
  | nil => simp [stripL] at h
  | cons a t ih =>
    rw [stripL, List.dropWhile_cons] at h
    by_cases ha : a.isWhitespace = true
    · rw [if_pos ha] at h
      exact ih h
    · rw [if_neg ha] at h
      simp only [List.head?_cons, Option.some.injEq] at h
      subst h
      simpa using ha

lemma stripL_cons_of_not {a : Char} (ha : a.isWhitespace = false) (t : List Char) :
    stripL (a :: t) = a :: t := by
  rw [stripL, List.dropWhile_cons, if_neg (by simp [ha])]

lemma stripL_idem (l : List Char) : stripL (stripL l) = stripL l := by
  cases h : stripL l with
  | nil => simp [stripL]
  | cons c t =>
    have hc : c.isWhitespace = false := stripL_head? (by rw [h]; rfl)
    exact stripL_cons_of_not hc t

lemma stripL_append_singleton {a : Char} (ha : a.isWhitespace = false) (l : List Char) :
    stripL (l ++ [a]) = stripL l ++ [a] := by
  induction l with
  | nil => simpa using stripL_cons_of_not ha []
  | cons x xs ih =>
    by_cases hx : x.isWhitespace = true
    · simp only [List.cons_append, stripL, List.dropWhile_cons, hx, if_true]
      simpa [stripL] using ih
    · have hx2 : x.isWhitespace = false := by simpa using hx
      rw [List.cons_append, stripL_cons_of_not hx2, stripL_cons_of_not hx2]
      rfl

lemma pyStrip_data (s : String) :
    (pyStrip s).data = (stripL (stripL s.data).reverse).reverse := rfl

lemma pyStrip_idem (s : String) : pyStrip (pyStrip s) = pyStrip s := by
  apply String.ext
  cases hA : stripL s.data with
  | nil =>
    have hd : (pyStrip s).data = [] := by rw [pyStrip_data, hA]; simp [stripL]
    rw [pyStrip_data (pyStrip s), hd]
    simp [stripL, hd]
  | cons a t =>
    have ha : a.isWhitespace = false := stripL_head? (by rw [hA]; rfl)
    have hd : (pyStrip s).data = a :: (stripL t.reverse).reverse := by
      rw [pyStrip_data, hA, List.reverse_cons, stripL_append_singleton ha]
      simp [List.reverse_append]
    rw [pyStrip_data (pyStrip s), hd]
    rw [stripL_cons_of_not ha, List.reverse_cons, List.reverse_reverse,
        stripL_append_singleton ha, stripL_idem]
    simp [List.reverse_append]

lemma pyStrip_getLast?_not {s : String} {c : Char} (h : (pyStrip s).data.getLast? = some c) :
    c.isWhitespace = false := by
  rw [pyStrip_data, List.getLast?_reverse] at h
  exact stripL_head? h

lemma pyStrip_head?_not {s : String} {c : Char} (h : (pyStrip s).data.head? = some c) :
    c.isWhitespace = false := by
  cases hA : stripL s.data with
  | nil =>
    rw [pyStrip_data, hA] at h
    simp [stripL] at h
  | cons a t =>
    have ha : a.isWhitespace = false := stripL_head? (by rw [hA]; rfl)
    have hd : (pyStrip s).data = a :: (stripL t.reverse).reverse := by
      rw [pyStrip_data, hA, List.reverse_cons, stripL_append_singleton ha]
      simp [List.reverse_append]
    rw [hd] at h
    simp only [List.head?_cons, Option.some.injEq] at h
    subst h
    exact ha

lemma pyStrip_eq_self {s : String}
    (h1 : ∀ c, s.data.head? = some c → c.isWhitespace = false)
    (h2 : ∀ c, s.data.getLast? = some c → c.isWhitespace = false) :
    pyStrip s = s := by
  apply String.ext
  rw [pyStrip_data]
  have hA : stripL s.data = s.data := by
    cases hd : s.data with
    | nil => simp [stripL]
    | cons a t => exact stripL_cons_of_not (h1 a (by rw [hd]; rfl)) t
  rw [hA]
  cases hr : s.data.reverse with
  | nil =>
    have hnil : s.data = [] := by simpa using congrArg List.reverse hr
    simp [stripL, hnil]
  | cons b u =>
    have hb : b.isWhitespace = false := by
      apply h2
      rw [← List.head?_reverse, hr]
      rfl
    rw [stripL_cons_of_not hb, ← hr, List.reverse_reverse]

lemma pyStrip_pickStr (keys : List (Option String)) (dflt : String) (hd : pyStrip dflt = dflt) :
    pyStrip (pickStr keys dflt) = pickStr keys dflt := by
  induction keys with
  | nil => simpa [pickStr] using hd
  | cons k rest ih =>
    cases k with
    | some v => simp [pickStr, pyStrip_idem]
    | none => simpa [pickStr] using ih

-- ── C3: unlabeled images never match ─────────────────────────────────────

/-- C3: `image_matches_build_context` is false whenever the fingerprint label is
absent or empty (including the docker `<no value>` output for a missing label),
for every recomputed digest; and it is true exactly when the label is non-empty
and equal to the freshly recomputed digest. -/
theorem claim_C3_unlabeled_never_matches (inspect : Option (Int × String)) (expected : String) :
    (imageLabelOf inspect = "" → image_matches_build_context inspect expected = false)
  ∧ (image_matches_build_context inspect expected = true ↔
      imageLabelOf inspect ≠ "" ∧ imageLabelOf inspect = expected)
  ∧ (∀ rc : Int, ∀ stdout : String, pyStrip stdout = "<no value>" →
      image_matches_build_context (some (rc, stdout)) expected = false) := by
  refine ⟨?_, ?_, ?_⟩
  · intro h
    simp [image_matches_build_context, h]
  · simp [image_matches_build_context, Bool.and_eq_true, bne_iff_ne, beq_iff_eq]
  · intro rc stdout h
    simp only [image_matches_build_context, imageLabelOf, h]
    split_ifs <;> simp_all

/-- C3 witness: a zero-exit docker inspect that prints `<no value>` (missing
label) does not match, even against a digest the current inputs produce. -/
theorem claim_C3_witness :
    image_matches_build_context (some (0, "<no value>")) "0a1b2c" = false :=
  (claim_C3_unlabeled_never_matches (some (0, "<no value>")) "0a1b2c").2.2 0 "<no value>" (by decide)

-- ── C5: version bump exactly on change ───────────────────────────────────

/-- C5: `apply_image_request_to_project` reports a change exactly when the
normalized request differs from the stored customization (as compared by the
code: stripped images, raw lists); on change the version increases by exactly
1, on no change the image record is untouched, and the version never
decreases. -/
theorem claim_C5_version_bump (image : ProjectImageSpec) (request : ImageRequestData) :
    ((apply_image_request_to_project image request).1 = true ↔
      imageCurrentView image ≠ imageDesiredView (normalize_image_request request))
  ∧ ((apply_image_request_to_project image request).1 = true →
      ((apply_image_request_to_project image request).2).version = image.version + 1)
  ∧ ((apply_image_request_to_project image request).1 = false →
      (apply_image_request_to_project image request).2 = image)
  ∧ image.version ≤ ((apply_image_request_to_project image request).2).version := by
  by_cases h : imageCurrentView image = imageDesiredView (normalize_image_request request)
  · have hap : apply_image_request_to_project image request = (false, image) := by
      simp only [apply_image_request_to_project]
      rw [if_pos h]
    rw [hap]
    simp [h]
  · have hap : apply_image_request_to_project image request =
        (true, { image with
          base_image := (normalize_image_request request).baseImage,
          from_image := (normalize_image_request request).fromImage,
          extra_packages := (normalize_image_request request).packages,
          extra_commands := (normalize_image_request request).commands,
          version := image.version + 1 }) := by
      simp only [apply_image_request_to_project]
      rw [if_neg h]
    rw [hap]
    refine ⟨by simp [h], fun _ => rfl, by simp, ?_⟩
    show image.version ≤ image.version + 1
    omega

/-- C5 witness: applying a request with one package to a fresh project image
record changes it and bumps the version from 0 to 1. -/
theorem claim_C5_witness :
    ((apply_image_request_to_project { } { packages := some ["libpq-dev"] }).1 = true)
  ∧ ((apply_image_request_to_project { } { packages := some ["libpq-dev"] }).2).version = 0 + 1 :=
  ⟨(claim_C5_version_bump { } { packages := some ["libpq-dev"] }).1.mpr (by decide),
   (claim_C5_version_bump { } { packages := some ["libpq-dev"] }).2.1 (by decide)⟩

-- ── C10: applying a request is idempotent ────────────────────────────────

lemma normalized_baseImage_stripped (d : ImageRequestData) :
    pyStrip (normalize_image_request d).baseImage = (normalize_image_request d).baseImage :=
  pyStrip_pickStr [d.baseImage, d.base_image] "" (by decide)

lemma normalized_fromImage_stripped (d : ImageRequestData) :
    pyStrip (normalize_image_request d).fromImage = (normalize_image_request d).fromImage :=
  pyStrip_pickStr [d.fromImage, d.from_image] "" (by decide)

/-- C10: when the normalized request equals the stored customization the
function returns `False` and changes nothing; consequently a second
application of the same request always returns `False` and changes nothing. -/
theorem claim_C10_apply_idempotent (image : ProjectImageSpec) (request : ImageRequestData) :
    (imageCurrentView image = imageDesiredView (normalize_image_request request) →
      apply_image_request_to_project image request = (false, image))
  ∧ apply_image_request_to_project ((apply_image_request_to_project image request).2) request
      = (false, (apply_image_request_to_project image request).2) := by
  have happly : ∀ img : ProjectImageSpec,
      imageCurrentView img = imageDesiredView (normalize_image_request request) →
      apply_image_request_to_project img request = (false, img) := by
    intro img h
    unfold apply_image_request_to_project
    rw [if_pos h]
  refine ⟨happly image, ?_⟩
  by_cases h : imageCurrentView image = imageDesiredView (normalize_image_request request)
  · have h1 := happly image h
    rw [h1]
    exact happly image h
  · have h2 : (apply_image_request_to_project image request).2 =
        { image with
            base_image := (normalize_image_request request).baseImage,
            from_image := (normalize_image_request request).fromImage,
            extra_packages := (normalize_image_request request).packages,
            extra_commands := (normalize_image_request request).commands,
            version := image.version + 1 } := by
      unfold apply_image_request_to_project
      rw [if_neg h]
  
    apply happly
    rw [h2]
    unfold imageCurrentView imageDesiredView
    simp [normalized_baseImage_stripped, normalized_fromImage_stripped]

/-- C10 witness: the second application of the same request returns `False`
and leaves the record as the first application produced it. -/
theorem claim_C10_witness :
    apply_image_request_to_project
        ((apply_image_request_to_project { } { packages := some ["libpq-dev"] }).2)
        { packages := some ["libpq-dev"] }
      = (false, (apply_image_request_to_project { } { packages := some ["libpq-dev"] }).2) :=
  (claim_C10_apply_idempotent { } { packages := some ["libpq-dev"] }).2

-- ── C7: verified install mode forbids sudo ───────────────────────────────

/-- C7: with `install.mode="verified"` and `agent.sudo=true`,
`validate_security_internal` emits an error mentioning "sudo" and requiring
`agent.sudo` to be false; with `agent.sudo=false` that rule contributes no
error. -/
theorem claim_C7_verified_sudo (s : SecurityProfile) :
    (s.install.mode = "verified" → s.agent.«sudo» = true →
      ∃ m ∈ (validate_security_internal s).errors,
        mentions "sudo" m ∧ mentions "requires agent.sudo to be false" m)
  ∧ (s.agent.«sudo» = false →
      "install.mode \x27verified\x27 requires agent.sudo to be false — agent could bypass proxy with sudo"
        ∉ (validate_security_internal s).errors) := by
  constructor
  · intro h1 h2
    refine ⟨"install.mode \x27verified\x27 requires agent.sudo to be false — agent could bypass proxy with sudo", ?_, by decide, by decide⟩
    simp [validate_security_internal, h1, h2]
  · intro h hmem
    simp only [validate_security_internal, List.mem_append] at hmem
    rcases hmem with ((h1 | h2) | h3) | h4
    · rw [if_neg (by simp [h])] at h1
      simp at h1
    · split_ifs at h2 with hc
      · rcases hc.1 with hmode | hmode <;>
        · rw [hmode] at h2
          simp only [List.mem_singleton] at h2
          exact absurd h2 (by decide)
      · simp at h2
    · split_ifs at h3 with hc
      · simp only [List.mem_singleton] at h3
        exact absurd h3 (by decide)
      · simp at h3
    · split_ifs at h4 with hc
      · simp only [List.mem_singleton] at h4
        exact absurd h4 (by decide)
      · simp at h4

/-- C7 witness: a concrete profile with verified install mode and sudo. -/
theorem claim_C7_witness :
    ∃ m ∈ (validate_security_internal
        { agent := { «sudo» := true }, install := { mode := "verified" } }).errors,
      mentions "sudo" m ∧ mentions "requires agent.sudo to be false" m :=
  (claim_C7_verified_sudo { agent := { «sudo» := true }, install := { mode := "verified" } }).1
    rfl rfl

-- ── C1: capability mismatch errors ───────────────────────────────────────

lemma mentions_append (a b c : String) : mentions b (a ++ b ++ c) := by
  unfold mentions
  refine ⟨a.data, c.data, ?_⟩
  simp [String.data_append]

lemma secEnvErrorMsg_eq (s : SecurityProfile) (e : Environment) (cap : String) :
    secEnvErrorMsg s e cap =
      ("security \x27" ++ s.name ++ "\x27 requires capability \x27") ++ cap ++
      ("\x27, but environment \x27" ++ e.name ++ "\x27 (mode: " ++ e.mode ++ ", driver: "
        ++ e.driver ++ ", network: " ++ e.network.mode ++ ") does not provide it."
        ++ capabilityHint cap e) := by
  unfold secEnvErrorMsg
  simp [String.append_assoc]

lemma mentions_secEnvErrorMsg (s : SecurityProfile) (e : Environment) (cap : String) :
    mentions cap (secEnvErrorMsg s e cap) := by
  rw [secEnvErrorMsg_eq]
  exact mentions_append _ _ _

/-- C1: `validate_security_environment` emits exactly one error per missing
capability token (its error list has one entry per element of
`required_capabilities − capabilities`, each mentioning its token), no errors
when the required capabilities are a subset of the provided ones, and on the
`network.mode="none"` / `outbound="unrestricted"` scenario exactly one error
mentioning the internet capability. -/
theorem claim_C1_validate_security_environment :
    (∀ (s : SecurityProfile) (e : Environment),
      (validate_security_environment s e).errors.length
        = (s.required_capabilities \ e.capabilities).card)
  ∧ (∀ (s : SecurityProfile) (e : Environment),
      ∀ cap ∈ s.required_capabilities \ e.capabilities,
        ∃ m ∈ (validate_security_environment s e).errors, mentions cap m)
  ∧ (∀ (s : SecurityProfile) (e : Environment),
      s.required_capabilities ⊆ e.capabilities →
        (validate_security_environment s e).errors = [])
  ∧ ((validate_security_environment { network := { outbound := "unrestricted" } }
        { network := { mode := "none" } }).errors.length = 1
      ∧ ∀ m ∈ (validate_security_environment { network := { outbound := "unrestricted" } }
          { network := { mode := "none" } }).errors, mentions "internet" m) := by
  refine ⟨?_, ?_, ?_, ?_⟩
  · intro s e
    simp [validate_security_environment, Finset.length_sort]
  · intro s e cap hcap
    refine ⟨secEnvErrorMsg s e cap, ?_, mentions_secEnvErrorMsg s e cap⟩
    show secEnvErrorMsg s e cap ∈
      ((s.required_capabilities \ e.capabilities).sort (· ≤ ·)).map (secEnvErrorMsg s e)
    exact List.mem_map_of_mem _ ((Finset.mem_sort (· ≤ ·)).mpr hcap)
  · intro s e hsub
    have hempty : s.required_capabilities \ e.capabilities = ∅ :=
      Finset.sdiff_eq_empty_iff_subset.mpr hsub
    simp [validate_security_environment, hempty]
  · have hmiss :
        ({ network := { outbound := "unrestricted" } } : SecurityProfile).required_capabilities
          \ ({ network := { mode := "none" } } : Environment).capabilities
          = {"network.internet"} := by decide
    have herr : (validate_security_environment { network := { outbound := "unrestricted" } }
        { network := { mode := "none" } }).errors
        = [secEnvErrorMsg { network := { outbound := "unrestricted" } }
            { network := { mode := "none" } } "network.internet"] := by
      simp only [validate_security_environment]
      rw [hmiss, Finset.sort_singleton (· ≤ ·)]
      rfl
    constructor
    · rw [herr]
      rfl
    · intro m hm
      rw [herr] at hm
      simp only [List.mem_singleton] at hm
      subst hm
      exact List.IsInfix.trans (by decide) (mentions_secEnvErrorMsg _ _ _)

/-- C1 witness: the default profile requires only the internet capability and
the default (bridge) environment provides it, so validation emits no errors. -/
theorem claim_C1_witness :
    (validate_security_environment { } { }).errors = [] :=
  claim_C1_validate_security_environment.2.2.1 { } { } (by decide)

-- ── C2: capability derivation ────────────────────────────────────────────

lemma capabilities_mem_iff (t : String) (e : Environment) :
    t ∈ e.capabilities ↔
      t ∈ e.networkCaps ∨ t ∈ e.managedCaps ∨ t = "container.sudo" ∨ t = "container.no-sudo"
        ∨ t ∈ e.gvisorCaps ∨ t ∈ e.auditCaps := by
  simp only [Environment.capabilities, Finset.mem_union, Finset.mem_insert, Finset.mem_singleton]
  tauto

lemma networkCaps_mem (t : String) (e : Environment) :
    t ∈ e.networkCaps ↔
      ((e.network.mode = "bridge" ∨ e.network.mode = "host") ∧ t = "network.internet")
    ∨ ((e.network.mode = "bridge" ∨ e.network.mode = "internal" ∨ e.network.mode = "none")
        ∧ t = "network.isolation")
    ∨ ((e.network.mode = "internal" ∨ e.network.mode = "none") ∧ t = "network.internal") := by
  unfold Environment.networkCaps
  split_ifs with h1 h2 h3 h4 <;> simp_all [Finset.mem_insert, Finset.mem_singleton]

lemma managedCaps_mem (t : String) (e : Environment) :
    t ∈ e.managedCaps ↔ e.mode = "managed"
      ∧ (t = "sidecar" ∨ t = "trusted.proxy" ∨ t = "trusted.log" ∨ t = "trusted.mcp") := by
  unfold Environment.managedCaps
  split_ifs with h <;> simp_all [Finset.mem_insert, Finset.mem_singleton]

lemma gvisorCaps_mem (t : String) (e : Environment) :
    t ∈ e.gvisorCaps ↔
      ((e.driver = "docker" ∨ e.driver = "compose") ∧ e.docker.container_runtime = "runsc")
        ∧ t = "isolation.gvisor" := by
  unfold Environment.gvisorCaps
  split_ifs with h <;> simp_all

lemma auditCaps_mem (t : String) (e : Environment) :
    t ∈ e.auditCaps ↔
      ((e.driver = "docker" ∧ e.docker.cleanup = "persistent")
        ∨ (e.driver = "compose" ∧ e.compose.cleanup = "persistent"))
      ∧ t = "audit.docker-diff" := by
  unfold Environment.auditCaps Environment.activeCleanup
  split_ifs <;> simp_all

/-- C2 (amended): token-by-token characterization of `Environment.capabilities`
over current fields: bridge gives internet+isolation, internal/none give
isolation+internal, host gives internet; managed mode adds the four sidecar
tokens; both sudo tokens are always present; driver docker/compose with
container runtime `runsc` (the gVisor runtime — not every non-default runtime)
gives the gvisor token; and persistent cleanup on docker/compose gives the
docker-diff audit token. -/
theorem claim_C2_capabilities (e : Environment) :
    ("network.internet" ∈ e.capabilities ↔
      (e.network.mode = "bridge" ∨ e.network.mode = "host"))
  ∧ ("network.isolation" ∈ e.capabilities ↔
      (e.network.mode = "bridge" ∨ e.network.mode = "internal" ∨ e.network.mode = "none"))
  ∧ ("network.internal" ∈ e.capabilities ↔
      (e.network.mode = "internal" ∨ e.network.mode = "none"))
  ∧ ("sidecar" ∈ e.capabilities ↔ e.mode = "managed")
  ∧ ("trusted.proxy" ∈ e.capabilities ↔ e.mode = "managed")
  ∧ ("trusted.log" ∈ e.capabilities ↔ e.mode = "managed")
  ∧ ("trusted.mcp" ∈ e.capabilities ↔ e.mode = "managed")
  ∧ "container.sudo" ∈ e.capabilities
  ∧ "container.no-sudo" ∈ e.capabilities
  ∧ ("isolation.gvisor" ∈ e.capabilities ↔
      (e.driver = "docker" ∨ e.driver = "compose") ∧ e.docker.container_runtime = "runsc")
  ∧ ("audit.docker-diff" ∈ e.capabilities ↔
      (e.driver = "docker" ∧ e.docker.cleanup = "persistent")
        ∨ (e.driver = "compose" ∧ e.compose.cleanup = "persistent")) := by
  refine ⟨?_, ?_, ?_, ?_, ?_, ?_, ?_, ?_, ?_, ?_, ?_⟩ <;>
    simp [capabilities_mem_iff, networkCaps_mem, managedCaps_mem, gvisorCaps_mem,
      auditCaps_mem]

/-- C2 counterexample: `kata` is a non-default container runtime on driver
docker, yet `capabilities` does not contain the gvisor-isolation token — the
code checks specifically for `runsc`, not for any non-default runtime. -/
theorem claim_C2_counterexample :
    ({ driver := "docker", docker := { container_runtime := "kata" } } : Environment).docker.container_runtime ≠ ""
  ∧ "isolation.gvisor" ∉
      ({ driver := "docker", docker := { container_runtime := "kata" } } : Environment).capabilities := by
  exact ⟨by decide, by decide⟩

/-- C2 witness: a managed compose environment provides the sidecar token. -/
theorem claim_C2_witness :
    "sidecar" ∈ ({ mode := "managed", driver := "compose" } : Environment).capabilities :=
  ((claim_C2_capabilities { mode := "managed", driver := "compose" }).2.2.2.1).mpr rfl

-- ── C6: package assembly order ───────────────────────────────────────────

lemma dedupFirstAux_sublist (seen : List String) (l : List String) :
    List.Sublist (dedupFirstAux seen l) l := by
  induction l generalizing seen with
  | nil => simp [dedupFirstAux]
  | cons p ps ih =>
    rw [dedupFirstAux]
    split_ifs with h
    · exact (ih seen).cons p
    · exact (ih (p :: seen)).cons₂ p

lemma dedupFirstAux_mem (seen : List String) (l : List String) (x : String) :
    x ∈ dedupFirstAux seen l ↔ x ∈ l ∧ x ∉ seen := by
  induction l generalizing seen with
  | nil => simp [dedupFirstAux]
  | cons p ps ih =>
    rw [dedupFirstAux]
    split_ifs with h
    · rw [ih]
      constructor
      · rintro ⟨hx, hs⟩
        exact ⟨List.mem_cons_of_mem _ hx, hs⟩
      · rintro ⟨hx, hs⟩
        rcases List.mem_cons.mp hx with rfl | hx
        · exact absurd h hs
        · exact ⟨hx, hs⟩
    · simp only [List.mem_cons, ih]
      constructor
      · rintro (rfl | ⟨hx, hs⟩)
        · exact ⟨Or.inl rfl, h⟩
        · exact ⟨Or.inr hx, fun hseen => hs (Or.inr hseen)⟩
      · rintro ⟨rfl | hx, hs⟩
        · exact Or.inl rfl
        · by_cases hxp : x = p
          · exact Or.inl hxp
          · exact Or.inr ⟨hx, fun hc => hc.elim hxp hs⟩

lemma dedupFirstAux_nodup (seen : List String) (l : List String) :
    (dedupFirstAux seen l).Nodup := by
  induction l generalizing seen with
  | nil => simp [dedupFirstAux]
  | cons p ps ih =>
    rw [dedupFirstAux]
    split_ifs with h
    · exact ih seen
    · refine List.nodup_cons.mpr ⟨?_, ih (p :: seen)⟩
      intro hc
      exact ((dedupFirstAux_mem _ _ _).mp hc).2 (List.mem_cons_self p seen)

/-- C6: `generate_dockerfile` builds its package line from the fixed-precedence
list (core, default toolbox, per-agent required, caller extras) deduplicated at
first occurrence; deduplication yields a sublist of that input (order
preserved, never re-sorted), without duplicates and losing no package; and the
`["git","jq"]` / `["jq","git"]` scenario package blocks are each a sublist of
the precedence-ordered input of that call. -/
theorem claim_C6_package_order :
    (∀ (agent : Option AgentConfig) (agents : List AgentConfig)
        (security : Option SecurityProfile) (base_image : String)
        (extra_packages extra_commands : List String),
      generate_dockerfile agent agents security base_image extra_packages extra_commands
        = dockerfileRender base_image
            (joinSep " \\\n    "
              (dedupFirst (packagesFor (selectedAgentsOf agent agents) extra_packages)))
            (installLinesFor agent (selectedAgentsOf agent agents))
            (extraLinesFor extra_commands) (sudoRemovalFor security))
  ∧ (∀ l : List String, List.Sublist (dedupFirst l) l)
  ∧ (∀ l : List String, (dedupFirst l).Nodup)
  ∧ (∀ (l : List String) (x : String), x ∈ dedupFirst l ↔ x ∈ l)
  ∧ List.Sublist (dedupFirst (packagesFor [] ["git", "jq"]))
      (CORE_PACKAGES ++ DEFAULT_PACKAGES ++ ["git", "jq"])
  ∧ List.Sublist (dedupFirst (packagesFor [] ["jq", "git"]))
      (CORE_PACKAGES ++ DEFAULT_PACKAGES ++ ["jq", "git"]) := by
  refine ⟨fun _ _ _ _ _ _ => rfl, fun l => dedupFirstAux_sublist [] l,
    fun l => dedupFirstAux_nodup [] l, ?_, ?_, ?_⟩
  · intro l x
    simp [dedupFirst, dedupFirstAux_mem]
  · have h : dedupFirst (packagesFor [] ["git", "jq"]) = CORE_PACKAGES ++ DEFAULT_PACKAGES := by
      decide
    rw [h]
    exact List.sublist_append_left _ _
  · have h : dedupFirst (packagesFor [] ["jq", "git"]) = CORE_PACKAGES ++ DEFAULT_PACKAGES := by
      decide
    rw [h]
    exact List.sublist_append_left _ _

/-- C6 witness: a caller-supplied extra package already in the core list is
kept (at its first occurrence) rather than dropped from the package set. -/
theorem claim_C6_witness : "git" ∈ dedupFirst (packagesFor [] ["git", "jq"]) :=
  (claim_C6_package_order.2.2.2.1 (packagesFor [] ["git", "jq"]) "git").mpr (by decide)

-- ── C4: build fingerprint sensitivity ────────────────────────────────────

lemma char_toNat_injective : Function.Injective Char.toNat := by
  intro a b h
  apply Char.ext
  apply UInt32.ext
  exact h

lemma strBytes_injective : Function.Injective strBytes := by
  intro a b h
  apply String.ext
  exact List.map_injective_iff.mpr char_toNat_injective h

lemma revMap48_injective : Function.Injective (fun l : List Nat => l.reverse.map (· + 48)) := by
  intro x y h
  have h1 : x.reverse = y.reverse :=
    List.map_injective_iff.mpr (fun a b hab => by omega) h
  simpa using congrArg List.reverse h1

lemma decBytes_injective : Function.Injective decBytes := by
  intro a b h
  unfold decBytes at h
  split_ifs at h with ha hb hb
  · rw [ha, hb]
  · exfalso
    have h0 : ([0] : List Nat).reverse.map (· + 48) = (Nat.digits 10 b).reverse.map (· + 48) := by
      simpa using h
    have hd : ([0] : List Nat) = Nat.digits 10 b := revMap48_injective h0
    have : b = 0 := by
      have hb2 : b = Nat.ofDigits 10 (Nat.digits 10 b) := (Nat.ofDigits_digits 10 b).symm
      rw [← hd] at hb2
      simpa [Nat.ofDigits] using hb2
    exact hb this
  · exfalso
    have h0 : (Nat.digits 10 a).reverse.map (· + 48) = ([0] : List Nat).reverse.map (· + 48) := by
      simpa using h
    have hd : Nat.digits 10 a = ([0] : List Nat) := revMap48_injective h0
    have : a = 0 := by
      have ha2 : a = Nat.ofDigits 10 (Nat.digits 10 a) := (Nat.ofDigits_digits 10 a).symm
      rw [hd] at ha2
      simpa [Nat.ofDigits] using ha2
    exact ha this
  · exact Nat.digits.injective 10 (revMap48_injective h)

/-- C4 (amended): the modeled digest — the marker-delimited byte stream fed to
SHA-256 — hashes absent optional assets as an explicit sentinel segment, and
changes whenever the entrypoint bytes (present on both sides), the presence of
the entrypoint (absent vs. bytes other than the sentinel), the build uid, the
build gid, or the generated build description changes.  Sensitivity to the
extra package and command lists holds only through the generated description:
extras already present among the core/default/agent packages are deduplicated
away and leave the digest unchanged (see the counterexample). -/
theorem claim_C4_fingerprint :
    (∀ m : String, hashWithMarker m none = strBytes m ++ [0] ++ strBytes "<missing>" ++ [0])
  ∧ (∀ (sec sec' : Option SecurityProfile) (ag ag' : Option AgentConfig)
        (ags ags' : List AgentConfig) (b b' : String) (ep ep' ec ec' : List String)
        (entry : Option (List Nat)) (uid gid : Nat) (st sl : Option (List Nat)),
      generate_dockerfile ag ags sec b ep ec ≠ generate_dockerfile ag' ags' sec' b' ep' ec' →
      compute_build_context_hash sec ag ags b ep ec entry uid gid st sl
        ≠ compute_build_context_hash sec' ag' ags' b' ep' ec' entry uid gid st sl)
  ∧ (∀ (sec : Option SecurityProfile) (ag : Option AgentConfig) (ags : List AgentConfig)
        (b : String) (ep ec : List String) (e e' : List Nat) (uid gid : Nat)
        (st sl : Option (List Nat)),
      e ≠ e' →
      compute_build_context_hash sec ag ags b ep ec (some e) uid gid st sl
        ≠ compute_build_context_hash sec ag ags b ep ec (some e') uid gid st sl)
  ∧ (∀ (sec : Option SecurityProfile) (ag : Option AgentConfig) (ags : List AgentConfig)
        (b : String) (ep ec : List String) (e : List Nat) (uid gid : Nat)
        (st sl : Option (List Nat)),
      e ≠ strBytes "<missing>" →
      compute_build_context_hash sec ag ags b ep ec none uid gid st sl
        ≠ compute_build_context_hash sec ag ags b ep ec (some e) uid gid st sl)
  ∧ (∀ (sec : Option SecurityProfile) (ag : Option AgentConfig) (ags : List AgentConfig)
        (b : String) (ep ec : List String) (entry : Option (List Nat)) (uid uid' gid : Nat)
        (st sl : Option (List Nat)),
      uid ≠ uid' →
      compute_build_context_hash sec ag ags b ep ec entry uid gid st sl
        ≠ compute_build_context_hash sec ag ags b ep ec entry uid' gid st sl)
  ∧ (∀ (sec : Option SecurityProfile) (ag : Option AgentConfig) (ags : List AgentConfig)
        (b : String) (ep ec : List String) (entry : Option (List Nat)) (uid gid gid' : Nat)
        (st sl : Option (List Nat)),
      gid ≠ gid' →
      compute_build_context_hash sec ag ags b ep ec entry uid gid st sl
        ≠ compute_build_context_hash sec ag ags b ep ec entry uid gid' st sl) := by
  refine ⟨fun m => rfl, ?_, ?_, ?_, ?_, ?_⟩
  · intro sec sec' ag ag' ags ags' b b' ep ep' ec ec' entry uid gid st sl hne hc
    apply hne
    simp only [compute_build_context_hash, hashWithMarker, Option.getD,
      List.append_assoc, List.append_cancel_left_eq] at hc
    exact strBytes_injective (List.append_cancel_right hc)
  · intro sec ag ags b ep ec e e' uid gid st sl hne hc
    apply hne
    simp only [compute_build_context_hash, hashWithMarker, Option.getD,
      List.append_assoc, List.append_cancel_left_eq] at hc
    exact List.append_cancel_right hc
  · intro sec ag ags b ep ec e uid gid st sl hne hc
    apply hne.symm
    simp only [compute_build_context_hash, hashWithMarker, Option.getD,
      List.append_assoc, List.append_cancel_left_eq] at hc
    exact List.append_cancel_right hc
  · intro sec ag ags b ep ec entry uid uid' gid st sl hne hc
    apply hne
    simp only [compute_build_context_hash, hashWithMarker, Option.getD,
      List.append_assoc, List.append_cancel_left_eq] at hc
    exact decBytes_injective (List.append_cancel_right hc)
  · intro sec ag ags b ep ec entry uid gid gid' st sl hne hc
    apply hne
    simp only [compute_build_context_hash, hashWithMarker, Option.getD,
      List.append_assoc, List.append_cancel_left_eq] at hc
    exact decBytes_injective (List.append_cancel_right hc)

/-- C4 counterexample: changing the extra package list from `["git"]` to
`["curl"]` — both packages already in `CORE_PACKAGES` — changes an element of
the extra package list but leaves the generated Dockerfile, and hence the
digest, unchanged. -/
theorem claim_C4_counterexample :
    (["git"] ≠ (["curl"] : List String))
  ∧ compute_build_context_hash none none [] "debian:bookworm-slim" ["git"] [] none 1000 1000 none none
    = compute_build_context_hash none none [] "debian:bookworm-slim" ["curl"] [] none 1000 1000 none none := by
  refine ⟨by decide, ?_⟩
  have hpkg : dedupFirst (packagesFor (selectedAgentsOf none []) ["git"])
      = dedupFirst (packagesFor (selectedAgentsOf none []) ["curl"]) := by decide
  have hdf : generate_dockerfile none [] none "debian:bookworm-slim" ["git"] []
      = generate_dockerfile none [] none "debian:bookworm-slim" ["curl"] [] := by
    simp only [generate_dockerfile, pkgLineFor]
    rw [hpkg]
  simp only [compute_build_context_hash]
  rw [hdf]

/-- C4 witness: digests for uid 1000 and uid 1001 differ with all other inputs
equal. -/
theorem claim_C4_witness :
    compute_build_context_hash none none [] "debian:bookworm-slim" [] [] none 1000 1000 none none
    ≠ compute_build_context_hash none none [] "debian:bookworm-slim" [] [] none 1001 1000 none none :=
  claim_C4_fingerprint.2.2.2.2.1 none none [] "debian:bookworm-slim" [] [] none 1000 1001 1000
    none none (by decide)

-- ── C8: per-project image naming ─────────────────────────────────────────

lemma image_name_for_agent_agent_default (b : String) (a : String) :
    image_name_for_agent b (if a = "" then "claude" else a) = image_name_for_agent b a := by
  by_cases h : a = ""
  · rw [if_pos h, h]
    have hn : normAgentName "claude" = normAgentName "" := by decide
    simp only [image_name_for_agent, hn]
  · rw [if_neg h]

/-- C8: with no image customization `image_name_for_project` returns exactly
the per-agent tag; with customization it splices `-<sanitized project name>-v<n>`
between the repository portion of the per-agent tag and its tag suffix, with
n ≥ 1 equal to the stored version normalized up from values below 1. -/
theorem claim_C8_image_name_for_project (b : String) (p : Project) :
    (¬ project_has_image_customizations p →
      image_name_for_project b p = image_name_for_agent b p.agent)
  ∧ (project_has_image_customizations p →
      ∃ n : Int, 1 ≤ n
        ∧ (p.image.version ≤ 0 → n = 1)
        ∧ (1 ≤ p.image.version → n = p.image.version)
        ∧ image_name_for_project b p =
            (splitImageRefTag (image_name_for_agent b p.agent)).1 ++ "-"
              ++ sanitizeMountName (if p.name = "" then "project" else p.name)
              ++ "-v" ++ toString n
              ++ (splitImageRefTag (image_name_for_agent b p.agent)).2) := by
  constructor
  · intro h
    simp only [image_name_for_project]
    rw [if_pos h]
    exact image_name_for_agent_agent_default b p.agent
  · intro h
    refine ⟨if p.image.version < 1 then 1 else p.image.version, ?_, ?_, ?_, ?_⟩
    · split_ifs with hv
      · omega
      · omega
    · intro hv0
      rw [if_pos (by omega)]
    · intro hv1
      rw [if_neg (by omega)]
    · simp only [image_name_for_project]
      rw [if_neg (not_not_intro h), image_name_for_agent_agent_default]

/-- C8 witness: a project with no customization gets the bare per-agent tag. -/
theorem claim_C8_witness :
    image_name_for_project "skua-base" { } = image_name_for_agent "skua-base" "claude" :=
  (claim_C8_image_name_for_project "skua-base" { }).1 (by decide)

-- ── C9: agent image naming and idempotence ───────────────────────────────

lemma lastIdxOf_eq_none_iff (c : Char) (l : List Char) : lastIdxOf c l = none ↔ c ∉ l := by
  induction l with
  | nil => simp [lastIdxOf]
  | cons a t ih =>
    cases h : lastIdxOf c t with
    | some i =>
      have hct : c ∈ t := by
        by_contra hc
        rw [← ih] at hc
        rw [h] at hc
        exact Option.noConfusion hc
      simp only [lastIdxOf, h]
      simp [List.mem_cons, hct]
    | none =>
      have hct : c ∉ t := ih.mp h
      simp only [lastIdxOf, h]
      by_cases hac : a = c
      · simp [hac, List.mem_cons]
      · simp only [if_neg hac]
        have hmem : c ∉ a :: t := by
          intro hc2
          rcases List.mem_cons.mp hc2 with h1 | h1
          · exact hac h1.symm
          · exact hct h1
        simp [hmem]

lemma lastIdxOf_append_right (c : Char) (xs ys : List Char) (j : Nat)
    (h : lastIdxOf c ys = some j) :
    lastIdxOf c (xs ++ ys) = some (xs.length + j) := by
  induction xs with
  | nil => simpa using h
  | cons x xs ih =>
    simp only [List.cons_append, lastIdxOf, List.append_eq, ih]
    simp only [List.length_cons, Option.some.injEq]
    omega

lemma lastIdxOf_append_left (c : Char) (xs ys : List Char) (h : c ∉ ys) :
    lastIdxOf c (xs ++ ys) = lastIdxOf c xs := by
  have hnone : lastIdxOf c ys = none := (lastIdxOf_eq_none_iff c ys).mpr h
  induction xs with
  | nil => simpa using hnone
  | cons x xs ih =>
    simp only [List.cons_append, lastIdxOf, List.append_eq, ih]

lemma lastIdxOf_bound (c : Char) (l : List Char) (i : Nat) (h : lastIdxOf c l = some i) :
    i < l.length := by
  induction l generalizing i with
  | nil => simp [lastIdxOf] at h
  | cons a t ih =>
    cases ht : lastIdxOf c t with
    | some j =>
      simp only [lastIdxOf, ht, Option.some.injEq] at h
      have hj := ih j ht
      simp only [List.length_cons]
      omega
    | none =>
      simp only [lastIdxOf, ht] at h
      split_ifs at h with hac
      simp only [Option.some.injEq] at h
      simp only [List.length_cons]
      omega

lemma lastIdxOf_spec (c : Char) (l : List Char) (i : Nat) (h : lastIdxOf c l = some i) :
    ∃ pre post, l = pre ++ c :: post ∧ pre.length = i ∧ c ∉ post := by
  induction l generalizing i with
  | nil => simp [lastIdxOf] at h
  | cons a t ih =>
    cases ht : lastIdxOf c t with
    | some j =>
      simp only [lastIdxOf, ht, Option.some.injEq] at h
      obtain ⟨pre, post, h1, h2, h3⟩ := ih j ht
      refine ⟨a :: pre, post, by rw [h1]; rfl, ?_, h3⟩
      simp only [List.length_cons, h2]
      omega
    | none =>
      simp only [lastIdxOf, ht] at h
      split_ifs at h with hac
      simp only [Option.some.injEq] at h
      refine ⟨[], t, ?_, by simpa using h, (lastIdxOf_eq_none_iff c t).mp ht⟩
      rw [hac]
      rfl

lemma lastIdxOf_cons_self (c : Char) (post : List Char) (h : c ∉ post) :
    lastIdxOf c (c :: post) = some 0 := by
  simp [lastIdxOf, (lastIdxOf_eq_none_iff c post).mpr h]

lemma pyStrip_subset {s : String} {c : Char} (h : c ∈ (pyStrip s).data) : c ∈ s.data := by
  rw [pyStrip_data, List.mem_reverse] at h
  have h1 : c ∈ (stripL s.data).reverse := List.IsSuffix.subset (List.dropWhile_suffix _) h
  rw [List.mem_reverse] at h1
  exact List.IsSuffix.subset (List.dropWhile_suffix _) h1

lemma normAgentName_ne_empty (a : String) : normAgentName a ≠ "" := by
  simp only [normAgentName]
  split_ifs <;> first | assumption | decide

lemma normAgentName_stripped (a : String) : pyStrip (normAgentName a) = normAgentName a := by
  simp only [normAgentName]
  split_ifs <;> first | exact pyStrip_idem _ | decide

lemma normAgentName_no_colon {a : String} (h : ':' ∉ a.data) : ':' ∉ (normAgentName a).data := by
  simp only [normAgentName]
  split_ifs <;> first | decide | exact fun hc => h (pyStrip_subset hc)

lemma normBaseImageName_ne_empty (b : String) : normBaseImageName b ≠ "" := by
  simp only [normBaseImageName]
  split_ifs <;> first | assumption | decide

lemma normBaseImageName_stripped (b : String) :
    pyStrip (normBaseImageName b) = normBaseImageName b := by
  simp only [normBaseImageName]
  split_ifs <;> first | exact pyStrip_idem _ | decide

lemma normBaseImageName_of_stripped {s : String} (h1 : s ≠ "") (h2 : pyStrip s = s) :
    normBaseImageName s = s := by
  simp only [normBaseImageName]
  rw [if_neg h1, h2, if_neg h1]

lemma data_ne_nil_of_ne_empty {s : String} (h : s ≠ "") : s.data ≠ [] := by
  intro hc
  apply h
  apply String.ext
  simpa using hc

lemma ne_empty_of_data_ne_nil {s : String} (h : s.data ≠ []) : s ≠ "" := by
  intro hc
  apply h
  rw [hc]

lemma imageNameCore_of_suffix {base agent : String}
    (h : ('-' :: agent.data) <:+ (splitTagIdx base.data).1) :
    imageNameCore base agent = base := by
  simp only [imageNameCore]
  rw [if_pos h]

lemma splitTagIdx_spec (l : List Char) :
    (∃ pre post, splitTagIdx l = (pre, ':' :: post) ∧ l = pre ++ ':' :: post
      ∧ ':' ∉ post ∧ '/' ∉ post)
  ∨ (splitTagIdx l = (l, [])
      ∧ ∀ ci, lastIdxOf ':' l = some ci → ∃ si, lastIdxOf '/' l = some si ∧ ci ≤ si) := by
  unfold splitTagIdx
  cases hci : lastIdxOf ':' l with
  | none =>
    right
    refine ⟨?_, ?_⟩
    · cases lastIdxOf '/' l <;> rfl
    · intro ci hc
      exact absurd hc (by simp)
  | some ci =>
    obtain ⟨pre, post, hl, hlen, hpost⟩ := lastIdxOf_spec ':' l ci hci
    have htake : l.take ci = pre := by
      rw [hl, ← hlen]
      exact List.take_left pre _
    have hdrop : l.drop ci = ':' :: post := by
      rw [hl, ← hlen]
      exact List.drop_left pre _
    cases hsi : lastIdxOf '/' l with
    | none =>
      left
      refine ⟨pre, post, ?_, hl, hpost, ?_⟩
      · show (l.take ci, l.drop ci) = (pre, ':' :: post)
        rw [htake, hdrop]
      · intro hc
        have hmem : '/' ∈ l := by
          rw [hl]
          exact List.mem_append.mpr (Or.inr (List.mem_cons_of_mem _ hc))
        exact (lastIdxOf_eq_none_iff '/' l).mp hsi hmem
    | some si =>
      by_cases hlt : si < ci
      · left
        refine ⟨pre, post, ?_, hl, hpost, ?_⟩
        · show (if si < ci then (l.take ci, l.drop ci) else (l, [])) = (pre, ':' :: post)
          rw [if_pos hlt, htake, hdrop]
        · intro hc
          have hne : lastIdxOf '/' post ≠ none := by
            intro h2
            exact (lastIdxOf_eq_none_iff '/' post).mp h2 hc
          obtain ⟨j, hj⟩ := Option.ne_none_iff_exists'.mp hne
          have hcomp : lastIdxOf '/' l = some ((pre ++ [':']).length + j) := by
            rw [hl, show pre ++ ':' :: post = (pre ++ [':']) ++ post by simp]
            exact lastIdxOf_append_right '/' _ post j hj
          rw [hsi] at hcomp
          simp only [Option.some.injEq, List.length_append, List.length_singleton] at hcomp
          omega
      · right
        refine ⟨?_, ?_⟩
        · show (if si < ci then (l.take ci, l.drop ci) else (l, [])) = (l, [])
          rw [if_neg hlt]
        · intro ci2 hc2
          simp only [Option.some.injEq] at hc2
          exact ⟨si, rfl, by omega⟩

lemma splitTagIdx_no_tag (l : List Char)
    (h : ∀ ci, lastIdxOf ':' l = some ci → ∃ si, lastIdxOf '/' l = some si ∧ ci ≤ si) :
    splitTagIdx l = (l, []) := by
  unfold splitTagIdx
  cases hci : lastIdxOf ':' l with
  | none => cases lastIdxOf '/' l <;> rfl
  | some ci =>
    obtain ⟨si, hsi, hle⟩ := h ci hci
    rw [hsi]
    show (if si < ci then (l.take ci, l.drop ci) else (l, [])) = (l, [])
    rw [if_neg (by omega)]

lemma splitTagIdx_append_tag (A post : List Char) (hpost : ':' ∉ post) (hslash : '/' ∉ post) :
    splitTagIdx (A ++ ':' :: post) = (A, ':' :: post) := by
  have hcolon : lastIdxOf ':' (A ++ ':' :: post) = some A.length := by
    have h0 : lastIdxOf ':' (':' :: post) = some 0 := lastIdxOf_cons_self ':' post hpost
    simpa using lastIdxOf_append_right ':' A (':' :: post) 0 h0
  have htake : (A ++ ':' :: post).take A.length = A := List.take_left A _
  have hdrop : (A ++ ':' :: post).drop A.length = ':' :: post := List.drop_left A _
  have hslash2 : '/' ∉ (':' :: post) := by
    intro hc
    rcases List.mem_cons.mp hc with h1 | h1
    · exact absurd h1 (by decide)
    · exact hslash h1
  unfold splitTagIdx
  rw [hcolon]
  cases hsi : lastIdxOf '/' (A ++ ':' :: post) with
  | none =>
    show ((A ++ ':' :: post).take A.length, (A ++ ':' :: post).drop A.length) = (A, ':' :: post)
    rw [htake, hdrop]
  | some si =>
    have heq : lastIdxOf '/' (A ++ ':' :: post) = lastIdxOf '/' A :=
      lastIdxOf_append_left '/' A _ hslash2
    rw [heq] at hsi
    have hb := lastIdxOf_bound '/' A si hsi
    show (if si < A.length then ((A ++ ':' :: post).take A.length, (A ++ ':' :: post).drop A.length)
        else (A ++ ':' :: post, [])) = (A, ':' :: post)
    rw [if_pos hb, htake, hdrop]

lemma imageNameCore_stable (base agent : String)
    (hb : base ≠ "") (hbs : pyStrip base = base)
    (ha : agent ≠ "") (has : pyStrip agent = agent) (hac : ':' ∉ agent.data) :
    normBaseImageName (imageNameCore base agent) = imageNameCore base agent
  ∧ imageNameCore (imageNameCore base agent) agent = imageNameCore base agent := by
  by_cases hsuf : ('-' :: agent.data) <:+ (splitTagIdx base.data).1
  · have hr : imageNameCore base agent = base := imageNameCore_of_suffix hsuf
    rw [hr]
    exact ⟨normBaseImageName_of_stripped hb hbs, imageNameCore_of_suffix hsuf⟩
  · have hrdata : (imageNameCore base agent).data
        = (splitTagIdx base.data).1 ++ ('-' :: agent.data) ++ (splitTagIdx base.data).2 := by
      simp only [imageNameCore]
      rw [if_neg hsuf]
    have hheadl : ∀ c, base.data.head? = some c → c.isWhitespace = false := fun c hc =>
      pyStrip_head?_not (s := base) (by rw [hbs]; exact hc)
    have hlastl : ∀ c, base.data.getLast? = some c → c.isWhitespace = false := fun c hc =>
      pyStrip_getLast?_not (s := base) (by rw [hbs]; exact hc)
    have hlasta : ∀ c, agent.data.getLast? = some c → c.isWhitespace = false := fun c hc =>
      pyStrip_getLast?_not (s := agent) (by rw [has]; exact hc)
    have hlne : base.data ≠ [] := data_ne_nil_of_ne_empty hb
    have hane : agent.data ≠ [] := data_ne_nil_of_ne_empty ha
    rcases splitTagIdx_spec base.data with ⟨pre, post, hsp, hl, hpost, hslash⟩ | ⟨hsp, hcond⟩
    · have hrdata2 : (imageNameCore base agent).data
          = (pre ++ ('-' :: agent.data)) ++ (':' :: post) := by
        rw [hrdata, hsp]
      have hsp2 : splitTagIdx (imageNameCore base agent).data
          = (pre ++ ('-' :: agent.data), ':' :: post) := by
        rw [hrdata2]
        exact splitTagIdx_append_tag _ post hpost hslash
      have hsuffix2 : ('-' :: agent.data) <:+ (pre ++ ('-' :: agent.data)) := ⟨pre, rfl⟩
      constructor
      · apply normBaseImageName_of_stripped
        · apply ne_empty_of_data_ne_nil
          rw [hrdata2]
          simp
        · apply pyStrip_eq_self
          · intro c hc
            rw [hrdata2] at hc
            cases pre with
            | nil =>
              simp only [List.nil_append, List.cons_append, List.head?_cons,
                Option.some.injEq] at hc
              subst hc
              decide
            | cons p0 pr =>
              simp only [List.cons_append, List.head?_cons, Option.some.injEq] at hc
              subst hc
              apply hheadl
              rw [hl]
              rfl
          · intro c hc
            rw [hrdata2, List.getLast?_append_of_ne_nil _ (by simp)] at hc
            apply hlastl
            rw [hl, List.getLast?_append_of_ne_nil _ (by simp)]
            exact hc
      · apply imageNameCore_of_suffix
        rw [hsp2]
        exact hsuffix2
    · have hrdata2 : (imageNameCore base agent).data = base.data ++ ('-' :: agent.data) := by
        rw [hrdata, hsp]
        simp
      have hnocolon : ':' ∉ ('-' :: agent.data) := by
        intro hc2
        rcases List.mem_cons.mp hc2 with h1 | h1
        · exact absurd h1 (by decide)
        · exact hac h1
      have hsp2 : splitTagIdx (imageNameCore base agent).data
          = ((imageNameCore base agent).data, []) := by
        apply splitTagIdx_no_tag
        intro ci hci
        rw [hrdata2, lastIdxOf_append_left ':' _ _ hnocolon] at hci
        obtain ⟨si, hsi, hle⟩ := hcond ci hci
        cases hsj : lastIdxOf '/' ('-' :: agent.data) with
        | none =>
          refine ⟨si, ?_, hle⟩
          rw [hrdata2, lastIdxOf_append_left '/' _ _ ((lastIdxOf_eq_none_iff _ _).mp hsj)]
          exact hsi
        | some j =>
          refine ⟨base.data.length + j, ?_, ?_⟩
          · rw [hrdata2]
            exact lastIdxOf_append_right '/' _ _ j hsj
          · have hbnd := lastIdxOf_bound ':' base.data ci hci
            omega
      constructor
      · apply normBaseImageName_of_stripped
        · apply ne_empty_of_data_ne_nil
          rw [hrdata2]
          simp
        · apply pyStrip_eq_self
          · intro c hc
            rw [hrdata2] at hc
            cases hld : base.data with
            | nil => exact absurd hld hlne
            | cons p0 pr =>
              rw [hld] at hc
              simp only [List.cons_append, List.head?_cons, Option.some.injEq] at hc
              subst hc
              apply hheadl
              rw [hld]
              rfl
          · intro c hc
            rw [hrdata2, List.getLast?_append_of_ne_nil _ (by simp)] at hc
            rw [show ('-' :: agent.data) = ['-'] ++ agent.data from rfl,
              List.getLast?_append_of_ne_nil _ hane] at hc
            exact hlasta c hc
      · apply imageNameCore_of_suffix
        rw [hsp2]
        exact ⟨base.data, hrdata2.symm⟩

/-- C9 (amended): `image_name_for_agent` appends `-<agent>` to the repository
portion, splitting a tag only at a colon after the last slash (a registry
host:port is not mistaken for a tag), and is idempotent for every base name
provided the agent name contains no colon (an agent name with a colon lands in
the tag-splitting logic on re-application and breaks idempotence, see the
counterexample). -/
theorem claim_C9_image_name_for_agent :
    image_name_for_agent "localhost:5000/app" "claude" = "localhost:5000/app-claude"
  ∧ image_name_for_agent "repo:v1" "claude" = "repo-claude:v1"
  ∧ image_name_for_agent "repo" "claude" = "repo-claude"
  ∧ image_name_for_agent "repo-claude:v1" "claude" = "repo-claude:v1"
  ∧ (∀ b a : String, ':' ∉ a.data →
      image_name_for_agent (image_name_for_agent b a) a = image_name_for_agent b a) := by
  refine ⟨by decide, by decide, by decide, by decide, ?_⟩
  intro b a hac
  have h := imageNameCore_stable (normBaseImageName b) (normAgentName a)
    (normBaseImageName_ne_empty b) (normBaseImageName_stripped b)
    (normAgentName_ne_empty a) (normAgentName_stripped a) (normAgentName_no_colon hac)
  unfold image_name_for_agent
  rw [h.1]
  exact h.2

/-- C9 counterexample: with the agent name `c:d` (containing a colon), applying
`image_name_for_agent` to its own result changes the string again, so the
operation is not idempotent for every agent name. -/
theorem claim_C9_counterexample :
    image_name_for_agent (image_name_for_agent "repo" "c:d") "c:d"
      ≠ image_name_for_agent "repo" "c:d" := by
  decide

/-- C9 witness: idempotence at a base name with a tag and the default agent. -/
theorem claim_C9_witness :
    image_name_for_agent (image_name_for_agent "repo:v1" "claude") "claude"
      = image_name_for_agent "repo:v1" "claude" :=
  claim_C9_image_name_for_agent.2.2.2.2 "repo:v1" "claude" (by decide)
